import Mathlib

/-!
Verification development for the web-application vulnerability scanner
(`web_app_scanner.py`).  The Python source is shallowly embedded: each
relevant method of `VulnerabilityScanner` becomes a Lean function over an
explicit model of its inputs (HTTP traffic is an oracle function, raised
exceptions become `Option`/flag values, mutable accumulators become
explicit list parameters).  Library calls used by the source
(`urllib.parse.urljoin`, `str.replace`, `re.findall` for the fetch
pattern, `requests`' case-insensitive header dictionary) are modelled
faithfully from their documented Python semantics.
-/

/-- Character code 39, the single-quote character. -/
def squote : Char := Char.ofNat 39

/-- Character code 34, the double-quote character. -/
def dquote : Char := Char.ofNat 34

/-- Model of the Python substring test `needle in hay`. -/
def strContainsSub (hay needle : String) : Bool :=
  hay.data.tails.any (fun t => needle.data.isPrefixOf t)

/-- Model of Python `s.startswith((p1, p2, ...))`: true when some listed
string is a prefix of `s`. -/
def startsWithAny (s : String) (ps : List String) : Bool :=
  ps.any (fun p => p.data.isPrefixOf s.data)

/-- Model of Python `s.lower()`. -/
def pyLower (s : String) : String := String.mk (s.data.map Char.toLower)

/-- Model of Python `s.upper()`. -/
def pyUpper (s : String) : String := String.mk (s.data.map Char.toUpper)

/-- Model of Python `sep.join(xs)`. -/
def joinWith (sep : String) : List String → String
  | [] => ""
  | [x] => x
  | x :: y :: rest => x ++ sep ++ joinWith sep (y :: rest)

/-- Model of Python `s.split(c)` for a one-character separator (also the
behaviour of `String.splitOn` for that separator). -/
def splitOnCharAux (c : Char) : List Char → List Char → List String
  | [], cur => [String.mk cur.reverse]
  | x :: rest, cur =>
    if x = c then String.mk cur.reverse :: splitOnCharAux c rest []
    else splitOnCharAux c rest (x :: cur)

/-- Split a string on a one-character separator. -/
def splitOnChar (c : Char) (s : String) : List String := splitOnCharAux c s.data []

/-! ## Model of `urllib.parse` (urlsplit / urlunsplit / urljoin)

Translated from CPython's `urllib/parse.py`, specialised to
`allow_fragments=True` and ignoring the legacy `;params` component
(treated as always empty), which matches every URL form the scanner
constructs. -/

/-- The five components produced by `urlsplit`. -/
structure UrlParts where
  scheme : String
  netloc : String
  path : String
  query : String
  fragment : String
deriving Repr, DecidableEq

/-- Split a character list at the first occurrence of `c`, returning the
parts before and after it, or `none` when `c` does not occur. -/
def splitFirst (c : Char) : List Char → Option (List Char × List Char)
  | [] => none
  | x :: rest =>
    if x = c then some ([], rest)
    else (splitFirst c rest).map (fun p => (x :: p.1, p.2))

/-- Characters permitted in a URL scheme (CPython `scheme_chars`). -/
def scheme_chars : List Char :=
  "abcdefghijklmnopqrstuvwxyzABCDEFGHIJKLMNOPQRSTUVWXYZ0123456789+-.".data

/-- Model of `urllib.parse.urlsplit(url, defaultScheme)`: extract scheme
(lower-cased, falling back to the default), network location, path, query
and fragment. -/
def urlsplit (url : String) (defaultScheme : String) : UrlParts :=
  let cs := url.data
  let schemeRest : String × List Char :=
    match splitFirst ':' cs with
    | some (pre, post) =>
      if pre ≠ [] ∧ (pre.headD ' ').isAlpha ∧ pre.all (fun c => scheme_chars.contains c) then
        (String.mk (pre.map Char.toLower), post)
      else (defaultScheme, cs)
    | none => (defaultScheme, cs)
  let netlocRest : List Char × List Char :=
    match schemeRest.2 with
    | '/' :: '/' :: r =>
      (r.takeWhile (fun c => ¬ (c = '/' ∨ c = '?' ∨ c = '#')),
       r.dropWhile (fun c => ¬ (c = '/' ∨ c = '?' ∨ c = '#')))
    | other => ([], other)
  let restFragment : List Char × List Char :=
    match splitFirst '#' netlocRest.2 with
    | some (a, b) => (a, b)
    | none => (netlocRest.2, [])
  let pathQuery : List Char × List Char :=
    match splitFirst '?' restFragment.1 with
    | some (a, b) => (a, b)
    | none => (restFragment.1, [])
  { scheme := schemeRest.1
    netloc := String.mk netlocRest.1
    path := String.mk pathQuery.1
    query := String.mk pathQuery.2
    fragment := String.mk restFragment.2 }

/-- Model of `urllib.parse.urlunsplit`. -/
def urlunsplit (p : UrlParts) : String :=
  let u0 := p.path
  let u1 :=
    if p.netloc ≠ "" ∨ u0.data.take 2 = ['/', '/'] then
      "//" ++ p.netloc ++ (if u0 ≠ "" ∧ u0.data.headD ' ' ≠ '/' then "/" ++ u0 else u0)
    else u0
  let u2 := if p.scheme ≠ "" then p.scheme ++ ":" ++ u1 else u1
  let u3 := if p.query ≠ "" then u2 ++ "?" ++ p.query else u2
  if p.fragment ≠ "" then u3 ++ "#" ++ p.fragment else u3

/-- CPython `urllib.parse.uses_relative`. -/
def uses_relative : List String :=
  ["", "ftp", "http", "gopher", "nntp", "imap", "wais", "file", "https",
   "shttp", "mms", "prospero", "rtsp", "rtspu", "sftp", "svn", "svn+ssh",
   "ws", "wss"]

/-- CPython `urllib.parse.uses_netloc`. -/
def uses_netloc : List String :=
  ["", "ftp", "http", "gopher", "nntp", "telnet", "imap", "wais", "file",
   "mms", "https", "shttp", "snews", "prospero", "rtsp", "rtspu", "rsync",
   "svn", "svn+ssh", "sftp", "nfs", "git", "git+ssh", "ws", "wss"]

/-- Python slice assignment `segments[1:-1] = filter(None, segments[1:-1])`:
drop empty strings strictly between the first and last element. -/
def filterMiddle (l : List String) : List String :=
  match l with
  | [] => []
  | x :: rest =>
    match rest.getLast? with
    | none => [x]
    | some last => x :: (rest.dropLast.filter (fun s => s ≠ "")) ++ [last]

/-- The `'.'`/`'..'` resolution loop of `urljoin`: `..` pops the last
resolved segment (no-op when empty), `.` is skipped. -/
def resolveDots : List String → List String → List String
  | [], acc => acc
  | s :: rest, acc =>
    if s = ".." then resolveDots rest acc.dropLast
    else if s = "." then resolveDots rest acc
    else resolveDots rest (acc ++ [s])

/-- Model of `urllib.parse.urljoin(base, url)`. -/
def urljoin (base url : String) : String :=
  if base = "" then url
  else if url = "" then base
  else
    let b := urlsplit base ""
    let u := urlsplit url b.scheme
    if u.scheme ≠ b.scheme ∨ ¬ uses_relative.contains u.scheme then url
    else
      let step : Option String :=
        if uses_netloc.contains u.scheme then
          (if u.netloc ≠ "" then none else some b.netloc)
        else some u.netloc
      match step with
      | none => urlunsplit { scheme := u.scheme, netloc := u.netloc, path := u.path, query := u.query, fragment := u.fragment }
      | some nl =>
        if u.path = "" then
          urlunsplit { scheme := u.scheme, netloc := nl, path := b.path,
                       query := (if u.query ≠ "" then u.query else b.query),
                       fragment := u.fragment }
        else
          let base_parts0 := splitOnChar '/' b.path
          let base_parts := if base_parts0.getLastD "" ≠ "" then base_parts0.dropLast else base_parts0
          let segments :=
            if u.path.data.headD ' ' = '/' then splitOnChar '/' u.path
            else filterMiddle (base_parts ++ splitOnChar '/' u.path)
          let resolved0 := resolveDots segments []
          let resolved :=
            if segments.getLastD "" = "." ∨ segments.getLastD "" = ".." then
              resolved0 ++ [""]
            else resolved0
          let joined := joinWith "/" resolved
          urlunsplit { scheme := u.scheme, netloc := nl,
                       path := (if joined = "" then "/" else joined),
                       query := u.query, fragment := u.fragment }

/-- The scheme component of a URL (empty string when none). -/
def urlScheme (u : String) : String := (urlsplit u "").scheme

/-- The origin of a URL in the sense of the design glossary:
scheme plus network location (host and port). -/
def urlOrigin (u : String) : String × String :=
  let p := urlsplit u ""
  (p.scheme, p.netloc)

/-! ## Data model -/

/-- Model of a `requests` response: body text, final URL, status code and
response headers (header lookup is case-insensitive, as in `requests`'
`CaseInsensitiveDict`). -/
structure Response where
  text : String
  url : String
  status_code : Nat
  headers : List (String × String)
deriving Repr, DecidableEq

/-- Case-insensitive header-presence test, modelling `name in response.headers`
on a `requests` `CaseInsensitiveDict`. -/
def headerHas (hs : List (String × String)) (name : String) : Bool :=
  hs.any (fun p => pyLower p.1 = pyLower name)

/-- Case-insensitive header lookup, modelling `response.headers[name]`
(empty string when absent). -/
def headerGet (hs : List (String × String)) (name : String) : String :=
  ((hs.find? (fun p => pyLower p.1 = pyLower name)).map (fun p => p.2)).getD ""

/-- One entry of `self.vulnerabilities`: the 4-tuple
`(vuln_type, url, payload_or_details, tested_url)`. -/
structure Finding where
  vulnType : String
  location : String
  detail : String
  testedUrl : String
deriving Repr, DecidableEq

/-- One entry of a form's `inputs` list as built by `crawl`:
the dict `{name, type, value}` (a missing `name` attribute is `None`). -/
structure FormField where
  name : Option String
  type : String
  value : String
deriving Repr, DecidableEq

/-- One entry of `self.forms` as built by `crawl`. -/
structure Form where
  action : String
  method : String
  inputs : List FormField
deriving Repr, DecidableEq

/-- An `<input>` tag as seen by BeautifulSoup: each attribute is present
or absent. -/
structure RawInput where
  name : Option String
  type : Option String
  value : Option String
deriving Repr, DecidableEq

/-- A `<form>` tag as seen by BeautifulSoup. -/
structure RawForm where
  action : Option String
  method : Option String
  inputs : List RawInput
deriving Repr, DecidableEq

/-- A `<script>` tag as seen by BeautifulSoup: its optional `src`
attribute and its text content. -/
structure ScriptTag where
  src : Option String
  text : String
deriving Repr, DecidableEq

/-! ## SiteCrawler (`crawl`) -/

/-- The excluded href prefixes of the link-extraction loop. -/
def excludedPrefixes : List String := ["javascript:", "mailto:", "tel:"]

/-- Link-extraction loop of `crawl` (lines 116-123): for each anchor
href, skip missing/empty hrefs and hrefs starting with an excluded
prefix, resolve against the target, keep the result when it contains
`target` as a substring and is not already collected.  `acc` models
`self.links_to_ignore` (insertion order kept for reproducibility). -/
def crawlLinks (target : String) : List (Option String) → List String → List String
  | [], acc => acc
  | href? :: rest, acc =>
    match href? with
    | none => crawlLinks target rest acc
    | some href =>
      if href ≠ "" ∧ startsWithAny href excludedPrefixes = false then
        let full := urljoin target href
        if strContainsSub full target = true ∧ full ∉ acc then
          crawlLinks target rest (acc ++ [full])
        else crawlLinks target rest acc
      else crawlLinks target rest acc

/-- Form extraction of `crawl` (lines 126-140): resolve the action
(default empty string), upper-case the method (default `get`), and record
name/type/value of every `<input>` tag. -/
def parseForm (target : String) (f : RawForm) : Form :=
  { action := urljoin target (f.action.getD "")
    method := pyUpper (f.method.getD "get")
    inputs := f.inputs.map (fun i =>
      { name := i.name, type := i.type.getD "text", value := i.value.getD "" }) }

/-- Lazy capture step of the regex `fetch\(["\x27](.*?)["\x27]\)` applied
after the opening quote: find the shortest prefix (containing no newline,
since `.` does not match newlines) that is followed by a quote and a
closing parenthesis. -/
def fetchCapture : List Char → Option (List Char × List Char)
  | [] => none
  | c :: rest =>
    if c = '\n' then none
    else if (c = dquote ∨ c = squote) ∧ rest.head? = some ')' then some ([], rest.tail)
    else (fetchCapture rest).map (fun p => (c :: p.1, p.2))

/-- Try to match the fetch pattern at the very start of `l`, returning
the captured group and the remainder after the match. -/
def tryFetchAt (l : List Char) : Option (List Char × List Char) :=
  match l with
  | 'f' :: 'e' :: 't' :: 'c' :: 'h' :: '(' :: q :: rest =>
    if q = dquote ∨ q = squote then fetchCapture rest else none
  | _ => none

theorem fetchCapture_length : ∀ {p : List Char} {cap r : List Char},
    fetchCapture p = some (cap, r) → r.length < p.length := by
  intro p
  induction p with
  | nil => intro cap r h; simp [fetchCapture] at h
  | cons c rest ih =>
    intro cap r h
    simp only [fetchCapture] at h
    split at h
    · simp at h
    · split at h
      · rename_i hq
        simp only [Option.some.injEq, Prod.mk.injEq] at h
        obtain ⟨hcap, hr⟩ := h
        subst hr
        cases rest with
        | nil => simp at hq
        | cons a b => simp only [List.tail_cons, List.length_cons]; omega
      · cases hf : fetchCapture rest with
        | none => rw [hf] at h; simp at h
        | some pr =>
          obtain ⟨p1, p2⟩ := pr
          rw [hf] at h
          simp at h
          obtain ⟨hcap, hr⟩ := h
          subst hr
          have := ih hf
          simp only [List.length_cons]
          omega

theorem tryFetchAt_length : ∀ {l cap r : List Char},
    tryFetchAt l = some (cap, r) → r.length < l.length := by
  intro l cap r h
  unfold tryFetchAt at h
  split at h
  · split at h
    · rename_i rest _ _
      have := fetchCapture_length h
      simp only [List.length_cons]
      omega
    · simp at h
  · simp at h

/-- Fuel-driven scan for `findFetch`.  One unit of fuel is spent per
examined character; by `tryFetchAt_length` every successful match
consumes at least one character, so fuel equal to the list length is
always sufficient. -/
def findFetchAux : Nat → List Char → List String
  | 0, _ => []
  | _, [] => []
  | fuel + 1, c :: rest =>
    match tryFetchAt (c :: rest) with
    | some (cap, r) => String.mk cap :: findFetchAux fuel r
    | none => findFetchAux fuel rest

/-- Model of `re.findall(r'fetch\(["\x27](.*?)["\x27]\)', text)`:
scan left to right, emitting each captured group and resuming after the
end of the match. -/
def findFetch (l : List Char) : List String := findFetchAux l.length l

/-- Insertion step of the endpoint loop (lines 150-152): resolve one
fetch-pattern capture against the target and add it to the visited-URL
collection when not already present. -/
def addUrl (target : String) (a : List String) (api : String) : List String :=
  let full := urljoin target api
  if full ∉ a then a ++ [full] else a

/-- API-endpoint extraction of `crawl` (lines 144-153): for each inline
(no-`src`) script, every fetch-pattern capture goes through `addUrl` into
the same visited-URL collection as the anchor links. -/
def crawlApis (target : String) : List ScriptTag → List String → List String
  | [], acc => acc
  | s :: rest, acc =>
    match s.src with
    | some _ => crawlApis target rest acc
    | none => crawlApis target rest ((findFetch s.text.data).foldl (addUrl target) acc)

/-- The visited-URL collection `self.links_to_ignore` after `crawl`:
anchor links first (lines 116-123), then script-extracted endpoints
(lines 144-153). -/
def crawl (target : String) (hrefs : List (Option String)) (scripts : List ScriptTag) : List String :=
  crawlApis target scripts (crawlLinks target hrefs [])

/-! ## Parametrized-URL probe helper (`_test_url_params`) -/

/-- Model of Python `url.replace("=", "=" + payload)` at the character
level: **every** occurrence of the one-character pattern is replaced. -/
def pyReplaceEq (payload : String) : List Char → List Char
  | [] => []
  | c :: rest =>
    if c = '=' then '=' :: (payload.data ++ pyReplaceEq payload rest)
    else c :: pyReplaceEq payload rest

/-- The test URL built by `_test_url_params` (line 452):
`url.replace("=", f"={payload}")`. -/
def buildTestUrl (url payload : String) : String :=
  String.mk (pyReplaceEq payload url.data)

/-- Substitution into the first `=` occurrence only, as the design
document describes it (later occurrences untouched).  Stated from the
spec's words for comparison with `buildTestUrl`. -/
def specFirstReplaceEq (payload : String) : List Char → List Char
  | [] => []
  | c :: rest =>
    if c = '=' then '=' :: (payload.data ++ rest)
    else c :: specFirstReplaceEq payload rest

/-- The test URL as the design document describes it: payload substituted
into the first `=` occurrence only. -/
def specBuildTestUrl (url payload : String) : String :=
  String.mk (specFirstReplaceEq payload url.data)

/-- Inner payload loop of `_test_url_params` (lines 451-465): for each
payload, GET the substituted URL (an exception, modelled as `none`,
continues with the next payload); on the first payload whose response
satisfies the detection predicate, record one finding and stop. -/
def testPayloadsOnUrl (http : String → Option Response) (detect : Response → Bool)
    (vulnType url : String) : List String → Option Finding
  | [] => none
  | payload :: rest =>
    match http (buildTestUrl url payload) with
    | none => testPayloadsOnUrl http detect vulnType url rest
    | some r =>
      if detect r then some { vulnType := vulnType, location := url, detail := payload, testedUrl := r.url }
      else testPayloadsOnUrl http detect vulnType url rest

/-- Model of `_test_url_params` (lines 448-465): only URLs containing `=`
are tested; each contributes at most the one finding of its payload
loop. -/
def test_url_params (http : String → Option Response) (detect : Response → Bool)
    (vulnType : String) (payloads : List String) : List String → List Finding
  | [] => []
  | url :: rest =>
    let tail := test_url_params http detect vulnType payloads rest
    if strContainsSub url "=" then
      match testPayloadsOnUrl http detect vulnType url payloads with
      | some f => f :: tail
      | none => tail
    else tail

/-! ## Form probe shape (`test_sql_injection` lines 173-198; `test_xss`
shares the same structure) -/

/-- Insertion into a Python dict built by `data[key] = value`: replace an
existing binding in place, otherwise append (insertion order kept). -/
def dictInsert (k : Option String) (v : String) :
    List (Option String × String) → List (Option String × String)
  | [] => [(k, v)]
  | (k2, v2) :: rest =>
    if k2 = k then (k2, v) :: rest else (k2, v2) :: dictInsert k v rest

/-- The parameter dict built for one form and one payload: fields whose
type is in `matchTypes` receive the payload, others keep their recorded
value. -/
def buildFormData (matchTypes : List String) (payload : String)
    (inputs : List FormField) : List (Option String × String) :=
  inputs.foldl
    (fun d f => dictInsert f.name (if matchTypes.contains f.type then payload else f.value) d)
    []

/-- Inner payload loop of the form probe: submit the filled form via its
method (POST when the recorded method equals `"POST"`, GET otherwise; an
exception, modelled as `none`, continues with the next payload) and stop
at the first payload whose response satisfies the detection predicate. -/
def testFormPayloads (submit : String → String → List (Option String × String) → Option Response)
    (detect : Response → Bool) (vulnType : String) (matchTypes : List String)
    (fm : Form) : List String → Option Finding
  | [] => none
  | payload :: rest =>
    let data := buildFormData matchTypes payload fm.inputs
    match submit (if fm.method = "POST" then "POST" else "GET") fm.action data with
    | none => testFormPayloads submit detect vulnType matchTypes fm rest
    | some r =>
      if detect r then
        some { vulnType := vulnType, location := fm.action,
               detail := "Form parameter with payload: " ++ payload, testedUrl := r.url }
      else testFormPayloads submit detect vulnType matchTypes fm rest

/-- Outer form loop of the form probe: each form contributes at most the
one finding of its payload loop. -/
def formProbeLoop (submit : String → String → List (Option String × String) → Option Response)
    (detect : Response → Bool) (vulnType : String) (matchTypes : List String)
    (payloads : List String) : List Form → List Finding
  | [] => []
  | fm :: rest =>
    let tail := formProbeLoop submit detect vulnType matchTypes payloads rest
    match testFormPayloads submit detect vulnType matchTypes fm payloads with
    | some f => f :: tail
    | none => tail

/-- SQL-injection detection predicate (lines 170 and 188). -/
def sqlDetect (r : Response) : Bool :=
  ["error", "syntax", "mysql", "ora-", "sql"].any (fun e => strContainsSub (pyLower r.text) e)

/-- The form half of `test_sql_injection` (lines 173-198): payload into
text/password/hidden fields, submitted via the form's method. -/
def test_sql_injection_forms
    (submit : String → String → List (Option String × String) → Option Response)
    (payloads : List String) (forms : List Form) : List Finding :=
  formProbeLoop submit sqlDetect "SQL Injection" ["text", "password", "hidden"] payloads forms

/-! ## CSRF module (`test_csrf`, lines 324-335) -/

/-- The CSRF token names tested at line 327. -/
def csrf_token_names : List String := ["csrf", "csrftoken", "_token"]

/-- The generator inside `any(...)` at lines 327-328: short-circuit scan
of the form's inputs.  `input_field.get('name', '')` returns the stored
name, which is `None` for an `<input>` without a name attribute (the key
is always present, so the `''` default never applies); calling `.lower()`
on `None` raises `AttributeError`, modelled as `Except.error`. -/
def anyCsrfField : List FormField → Except Unit Bool
  | [] => Except.ok false
  | f :: rest =>
    match f.name with
    | none => Except.error ()
    | some n =>
      if csrf_token_names.contains (pyLower n) then Except.ok true
      else anyCsrfField rest

/-- Model of `test_csrf`: returns the findings appended before any raise,
together with a flag telling whether the loop raised.  A form whose scan
finds no CSRF-named field is flagged with the finding tuple of lines
329-334. -/
def test_csrf : List Form → List Finding × Bool
  | [] => ([], false)
  | fm :: rest =>
    match anyCsrfField fm.inputs with
    | Except.error _ => ([], true)
    | Except.ok true => test_csrf rest
    | Except.ok false =>
      let t := test_csrf rest
      ({ vulnType := "Potential CSRF (Missing Token)", location := fm.action,
         detail := "Form missing CSRF token", testedUrl := fm.action } :: t.1, t.2)

/-! ## Missing Security Headers module (`test_security_headers`,
lines 378-401) -/

/-- The five required security headers (lines 380-386). -/
def required_headers : List String :=
  ["X-Content-Type-Options", "X-Frame-Options", "Content-Security-Policy",
   "X-XSS-Protection", "Strict-Transport-Security"]

/-- Model of `test_security_headers`: one GET against the base URL (an
exception, modelled as `none`, yields no finding); when any required
header is absent, exactly one finding lists all the missing names. -/
def test_security_headers (target : String) (resp : Option Response) : List Finding :=
  match resp with
  | none => []
  | some r =>
    let missing := required_headers.filter (fun h => ! headerHas r.headers h)
    if missing = [] then []
    else [{ vulnType := "Missing Security Headers", location := target,
            detail := "Missing headers: " ++ joinWith ", " missing,
            testedUrl := target }]

/-! ## Technology discovery (`discover_technologies`, lines 66-107) -/

/-- The network behaviour seen by `discover_technologies`: the first
home-page GET (headers), the session cookie names, the per-path GETs of
the well-known-path loop, and the second home-page GET (body).  `none`
models a raised request exception. -/
structure TechOracle where
  homeHeaders : Option (List (String × String))
  cookieNames : List String
  pathStatus : String → Option Nat
  homeBody : Option String

/-- The well-known paths checked at lines 86-95 (dict insertion order). -/
def tech_paths : List (String × String) :=
  [("wp-admin", "WordPress"), ("joomla", "Joomla"), ("drupal", "Drupal"),
   ("laravel", "Laravel")]

/-- The path loop of lines 93-95 run inside the surrounding `try`: a
raised per-path request aborts the rest of the loop, keeping what was
appended before; the flag reports whether the loop raised. -/
def probePaths (pathStatus : String → Option Nat) :
    List (String × String) → List String × Bool
  | [] => ([], false)
  | (path, tech) :: rest =>
    match pathStatus path with
    | none => ([], true)
    | some code =>
      let t := probePaths pathStatus rest
      (if code = 200 then tech :: t.1 else t.1, t.2)

/-- The technologies collected before the path loop: `Server` header,
`X-Powered-By` header, and the PHP-cookie scan (lines 71-83; the cookie
loop breaks after the first match, so at most one label). -/
def headerCookieTechs (hs : List (String × String)) (cookieNames : List String) : List String :=
  (if headerHas hs "Server" then ["Server: " ++ headerGet hs "Server"] else [])
  ++ (if headerHas hs "X-Powered-By" then ["Powered By: " ++ headerGet hs "X-Powered-By"] else [])
  ++ (if cookieNames.any (fun c => strContainsSub (pyLower c) "php") then ["PHP detected from cookies"] else [])

/-- Model of `discover_technologies`: the whole body runs inside a single
`try`/`except`, so the first raised request ends the discovery, keeping
the technologies appended up to that point. -/
def discover_technologies (o : TechOracle) : List String :=
  match o.homeHeaders with
  | none => []
  | some hs =>
    let pre := headerCookieTechs hs o.cookieNames
    let pt := probePaths o.pathStatus tech_paths
    let afterPaths := pre ++ pt.1
    if pt.2 then afterPaths
    else
      match o.homeBody with
      | none => afterPaths
      | some body =>
        let b := pyLower body
        afterPaths
        ++ (if strContainsSub b "react" then ["ReactJS"] else [])
        ++ (if strContainsSub b "angular" then ["Angular"] else [])
        ++ (if strContainsSub b "vue" then ["Vue.js"] else [])

/-! ## Probing phase of `scan` (lines 56-64) -/

/-- The observable execution of one submitted test method: its name, the
findings it appended to the shared `self.vulnerabilities` list before
returning or raising, and the exception message when it raised. -/
structure ModuleOutcome where
  name : String
  findings : List Finding
  exn : Option String
deriving Repr, DecidableEq

/-- Model of the result-collection loop of `scan` (lines 56-64): every
appended finding stays in the shared list, and each raising module
produces the log line `"[-] Error in test: " + str(e)` (the module name
is not part of the message). -/
def probePhase : List ModuleOutcome → List Finding × List String
  | [] => ([], [])
  | m :: rest =>
    let t := probePhase rest
    (m.findings ++ t.1,
     (match m.exn with
      | some e => ["[-] Error in test: " ++ e]
      | none => []) ++ t.2)

/-! ## Concrete instances used by the claim theorems -/

/-- A form whose single `<input>` has no name attribute. -/
def formNamelessInput : Form :=
  { action := "http://test.local/a", method := "POST",
    inputs := [{ name := none, type := "text", value := "" }] }

/-- A form with no CSRF-like field name. -/
def formNoCsrfField : Form :=
  { action := "http://test.local/f2", method := "POST",
    inputs := [{ name := some "user", type := "text", value := "" }] }

/-- A form whose token field is named `csrf_token`. -/
def formCsrfTokenField : Form :=
  { action := "http://test.local/f1", method := "POST",
    inputs := [{ name := some "csrf_token", type := "hidden", value := "tok" },
               { name := some "user", type := "text", value := "" }] }

/-- A form whose token field is named `csrftoken`, one of the names the
code actually tests. -/
def formCsrftokenField : Form :=
  { action := "http://test.local/f3", method := "POST",
    inputs := [{ name := some "csrftoken", type := "hidden", value := "tok" }] }

/-- The finding `test_csrf` appends for a flagged form. -/
def csrfFinding (fm : Form) : Finding :=
  { vulnType := "Potential CSRF (Missing Token)", location := fm.action,
    detail := "Form missing CSRF token", testedUrl := fm.action }

/-- The execution of `test_csrf` on a form list whose second form raises:
the first form was already flagged when the exception occurs. -/
def csrfPartialRun : List Finding × Bool := test_csrf [formNoCsrfField, formNamelessInput]

/-- The outcome the orchestrator sees for that `test_csrf` execution. -/
def modCsrfOutcome : ModuleOutcome :=
  { name := "test_csrf", findings := csrfPartialRun.1,
    exn := if csrfPartialRun.2 then some "AttributeError" else none }

/-- A sibling module that completes without findings. -/
def modXssOutcome : ModuleOutcome := { name := "test_xss", findings := [], exn := none }

/-- An anchor href on a foreign origin whose query string contains the
target URL. -/
def hrefCrossOrigin : String := "http://evil.com/a?u=http://t"

/-- An anchor href using the javascript scheme with non-lowercase
spelling, mentioning the target URL. -/
def hrefJsScheme : String := "JavaScript:alert(http://t)"

/-- A response carrying none of the required security headers. -/
def respNoSecHeaders : Response :=
  { text := "", url := "http://test.local", status_code := 200, headers := [] }

/-- A response carrying all five required security headers. -/
def respAllSecHeaders : Response :=
  { text := "", url := "http://test.local", status_code := 200,
    headers := [("X-Content-Type-Options", "nosniff"), ("X-Frame-Options", "DENY"),
                ("Content-Security-Policy", "default-src"), ("X-XSS-Protection", "1"),
                ("Strict-Transport-Security", "max-age=1")] }

/-- A technology-discovery run in which the `wp-admin` probe raises while
every other path would answer 200. -/
def oracleWpFail : TechOracle :=
  { homeHeaders := some [("Server", "nginx")], cookieNames := ["phpsessid"],
    pathStatus := fun p => if p = "wp-admin" then none else some 200,
    homeBody := some "React" }

/-- A raw form whose method attribute is `put`. -/
def rawFormPut : RawForm :=
  { action := some "/login", method := some "put",
    inputs := [{ name := some "x", type := some "text", value := some "" }] }

/-- A raw form whose method attribute is `Post`. -/
def rawFormPost : RawForm :=
  { action := none, method := some "Post",
    inputs := [{ name := some "a", type := none, value := none }] }

/-- An inline script containing one fetch call with a parametrized URL. -/
def scriptDemo : ScriptTag := { src := none, text := "fetch(\"/api?id=1\")" }

/-- An HTTP oracle answering every GET with an SQL error page. -/
def httpSqlErr : String → Option Response :=
  fun u => some { text := "sql syntax error", url := u, status_code := 200, headers := [] }

/-- The finding produced for the script-extracted endpoint. -/
def fDemo : Finding :=
  { vulnType := "SQL Injection", location := "http://t/api?id=1",
    detail := "PAYLOAD", testedUrl := "http://t/api?id=PAYLOAD1" }

/-- An HTTP oracle on which every request raises. -/
def httpNone : String → Option Response := fun _ => none

/-- A form-submission oracle on which every request raises. -/
def submitNone : String → String → List (Option String × String) → Option Response :=
  fun _ _ _ => none

/-- A detection predicate that never triggers. -/
def detectNever : Response → Bool := fun _ => false

/-- Two distinct parametrized URLs. -/
def urlsDemo : List String := ["http://t/a?x=1", "http://t/b?y=2"]

/-! ## Helper lemmas -/

theorem testPayloadsOnUrl_location {http : String → Option Response} {detect : Response → Bool}
    {vulnType url : String} : ∀ {payloads : List String} {f : Finding},
    testPayloadsOnUrl http detect vulnType url payloads = some f → f.location = url := by
  intro payloads
  induction payloads with
  | nil => intro f h; simp [testPayloadsOnUrl] at h
  | cons p rest ih =>
    intro f h
    simp only [testPayloadsOnUrl] at h
    split at h
    · exact ih h
    · split at h
      · simp only [Option.some.injEq] at h
        subst h; rfl
      · exact ih h

theorem test_url_params_location {http : String → Option Response} {detect : Response → Bool}
    {vulnType : String} {payloads : List String} : ∀ {urls : List String} {f : Finding},
    f ∈ test_url_params http detect vulnType payloads urls → f.location ∈ urls := by
  intro urls
  induction urls with
  | nil => intro f h; simp [test_url_params] at h
  | cons u rest ih =>
    intro f h
    simp only [test_url_params] at h
    split at h
    · split at h
      · rename_i g heq
        rcases List.mem_cons.mp h with h1 | h2
        · subst h1
          rw [testPayloadsOnUrl_location heq]
          exact List.mem_cons_self _ _
        · exact List.mem_cons_of_mem _ (ih h2)
      · exact List.mem_cons_of_mem _ (ih h)
    · exact List.mem_cons_of_mem _ (ih h)

theorem test_url_params_count {http : String → Option Response} {detect : Response → Bool}
    {vulnType : String} {payloads : List String} : ∀ {urls : List String}, urls.Nodup →
    ∀ u, (test_url_params http detect vulnType payloads urls).countP
      (fun f => f.location = u) ≤ 1 := by
  intro urls
  induction urls with
  | nil => intro _ u; simp [test_url_params]
  | cons u0 rest ih =>
    intro hnd u
    have hnotin : u0 ∉ rest := (List.nodup_cons.mp hnd).1
    have hrest : rest.Nodup := (List.nodup_cons.mp hnd).2
    simp only [test_url_params]
    split
    · split
      · rename_i g heq
        rw [List.countP_cons]
        by_cases hu : g.location = u
        · have hu0 : u = u0 := by rw [← hu, testPayloadsOnUrl_location heq]
          have hzero : (test_url_params http detect vulnType payloads rest).countP
              (fun f => f.location = u) = 0 := by
            apply List.countP_eq_zero.mpr
            intro f hf
            simp only [decide_eq_true_eq]
            intro hfe
            exact hnotin (hu0 ▸ hfe ▸ test_url_params_location hf)
          rw [hzero]
          simp [hu]
        · simp only [hu, decide_False]
          simpa using ih hrest u
      · exact ih hrest u
    · exact ih hrest u

theorem testFormPayloads_location
    {submit : String → String → List (Option String × String) → Option Response}
    {detect : Response → Bool} {vulnType : String} {matchTypes : List String} {fm : Form} :
    ∀ {payloads : List String} {f : Finding},
    testFormPayloads submit detect vulnType matchTypes fm payloads = some f →
    f.location = fm.action := by
  intro payloads
  induction payloads with
  | nil => intro f h; simp [testFormPayloads] at h
  | cons p rest ih =>
    intro f h
    simp only [testFormPayloads] at h
    split at h
    · exact ih h
    · split at h
      · simp only [Option.some.injEq] at h
        subst h; rfl
      · exact ih h

theorem formProbeLoop_location
    {submit : String → String → List (Option String × String) → Option Response}
    {detect : Response → Bool} {vulnType : String} {matchTypes : List String}
    {payloads : List String} : ∀ {forms : List Form} {f : Finding},
    f ∈ formProbeLoop submit detect vulnType matchTypes payloads forms →
    f.location ∈ forms.map Form.action := by
  intro forms
  induction forms with
  | nil => intro f h; simp [formProbeLoop] at h
  | cons fm rest ih =>
    intro f h
    simp only [formProbeLoop] at h
    split at h
    · rename_i g heq
      rcases List.mem_cons.mp h with h1 | h2
      · subst h1
        rw [testFormPayloads_location heq]
        simp
      · exact List.mem_cons_of_mem _ (ih h2)
    · exact List.mem_cons_of_mem _ (ih h)

theorem formProbeLoop_count
    {submit : String → String → List (Option String × String) → Option Response}
    {detect : Response → Bool} {vulnType : String} {matchTypes : List String}
    {payloads : List String} : ∀ {forms : List Form}, (forms.map Form.action).Nodup →
    ∀ a, (formProbeLoop submit detect vulnType matchTypes payloads forms).countP
      (fun f => f.location = a) ≤ 1 := by
  intro forms
  induction forms with
  | nil => intro _ a; simp [formProbeLoop]
  | cons fm rest ih =>
    intro hnd a
    simp only [List.map_cons, List.nodup_cons] at hnd
    obtain ⟨hnotin, hrest⟩ := hnd
    simp only [formProbeLoop]
    split
    · rename_i g heq
      rw [List.countP_cons]
      by_cases ha : g.location = a
      · have ha0 : a = fm.action := by rw [← ha, testFormPayloads_location heq]
        have hzero : (formProbeLoop submit detect vulnType matchTypes payloads rest).countP
            (fun f => f.location = a) = 0 := by
          apply List.countP_eq_zero.mpr
          intro f hf
          simp only [decide_eq_true_eq]
          intro hfe
          exact hnotin (ha0 ▸ hfe ▸ formProbeLoop_location hf)
        rw [hzero]
        simp [ha]
      · simp only [ha, decide_False]
        simpa using ih hrest a
    · exact ih hrest a

theorem probePhase_findings_mem : ∀ {mods : List ModuleOutcome} {m : ModuleOutcome} {f : Finding},
    m ∈ mods → f ∈ m.findings → f ∈ (probePhase mods).1 := by
  intro mods
  induction mods with
  | nil => intro m f h; simp at h
  | cons m0 rest ih =>
    intro m f hm hf
    simp only [probePhase]
    rcases List.mem_cons.mp hm with h1 | h2
    · subst h1; exact List.mem_append_left _ hf
    · exact List.mem_append_right _ (ih h2 hf)

theorem probePhase_log_mem : ∀ {mods : List ModuleOutcome} {m : ModuleOutcome} {e : String},
    m ∈ mods → m.exn = some e → ("[-] Error in test: " ++ e) ∈ (probePhase mods).2 := by
  intro mods
  induction mods with
  | nil => intro m e h; simp at h
  | cons m0 rest ih =>
    intro m e hm he
    simp only [probePhase]
    rcases List.mem_cons.mp hm with h1 | h2
    · subst h1
      rw [he]
      exact List.mem_append_left _ (List.mem_singleton_self _)
    · exact List.mem_append_right _ (ih h2 he)

theorem crawlLinks_contains {target : String} : ∀ {hrefs : List (Option String)}
    {acc : List String}, (∀ l ∈ acc, strContainsSub l target = true) →
    ∀ l ∈ crawlLinks target hrefs acc, strContainsSub l target = true := by
  intro hrefs
  induction hrefs with
  | nil =>
    intro acc hacc l hl
    simp only [crawlLinks] at hl
    exact hacc l hl
  | cons h? rest ih =>
    intro acc hacc l hl
    cases h? with
    | none =>
      simp only [crawlLinks] at hl
      exact ih hacc l hl
    | some href =>
      simp only [crawlLinks] at hl
      split at hl
      · split at hl
        · rename_i hcond
          refine ih ?_ l hl
          intro x hx
          rcases List.mem_append.mp hx with h1 | h2
          · exact hacc x h1
          · rw [List.mem_singleton.mp h2]
            exact hcond.1
        · exact ih hacc l hl
      · exact ih hacc l hl

theorem crawlLinks_excluded {target href : String} {rest : List (Option String)}
    {acc : List String} (h : startsWithAny href excludedPrefixes = true) :
    crawlLinks target (some href :: rest) acc = crawlLinks target rest acc := by
  simp only [crawlLinks, h]
  simp

theorem mem_addUrl {target : String} {a : List String} {api x : String}
    (hx : x ∈ a) : x ∈ addUrl target a api := by
  show x ∈ if urljoin target api ∉ a then a ++ [urljoin target api] else a
  split
  · exact List.mem_append_left _ hx
  · exact hx

theorem mem_foldl_addUrl_of_mem {target : String} : ∀ {apis : List String}
    {acc : List String} {x : String}, x ∈ acc →
    x ∈ apis.foldl (addUrl target) acc := by
  intro apis
  induction apis with
  | nil => intro acc x hx; simpa using hx
  | cons a rest ih =>
    intro acc x hx
    simp only [List.foldl_cons]
    exact ih (mem_addUrl hx)

theorem mem_foldl_addUrl {target : String} : ∀ {apis : List String} {acc : List String}
    {api : String}, api ∈ apis → urljoin target api ∈ apis.foldl (addUrl target) acc := by
  intro apis
  induction apis with
  | nil => intro acc api h; simp at h
  | cons a rest ih =>
    intro acc api h
    simp only [List.foldl_cons]
    rcases List.mem_cons.mp h with h1 | h2
    · subst h1
      apply mem_foldl_addUrl_of_mem
      show urljoin target api ∈ if urljoin target api ∉ acc then acc ++ [urljoin target api] else acc
      split
      · exact List.mem_append_right _ (List.mem_singleton_self _)
      · rename_i hin
        simpa using hin
    · exact ih h2

theorem mem_crawlApis_of_mem {target : String} : ∀ {scripts : List ScriptTag}
    {acc : List String} {x : String}, x ∈ acc → x ∈ crawlApis target scripts acc := by
  intro scripts
  induction scripts with
  | nil => intro acc x hx; simpa [crawlApis] using hx
  | cons s rest ih =>
    intro acc x hx
    simp only [crawlApis]
    cases s.src with
    | some v => exact ih hx
    | none => exact ih (mem_foldl_addUrl_of_mem hx)

theorem crawlApis_adds {target : String} : ∀ {scripts : List ScriptTag} {s : ScriptTag}
    {api : String} {acc : List String}, s ∈ scripts → s.src = none →
    api ∈ findFetch s.text.data → urljoin target api ∈ crawlApis target scripts acc := by
  intro scripts
  induction scripts with
  | nil => intro s api acc h; simp at h
  | cons s0 rest ih =>
    intro s api acc hs hsrc hapi
    simp only [crawlApis]
    rcases List.mem_cons.mp hs with h1 | h2
    · subst h1
      rw [hsrc]
      exact mem_crawlApis_of_mem (mem_foldl_addUrl hapi)
    · cases s0.src with
      | some v => exact ih h2 hsrc hapi
      | none => exact ih h2 hsrc hapi

theorem mem_test_url_params {http : String → Option Response} {detect : Response → Bool}
    {vulnType : String} {payloads : List String} : ∀ {urls : List String} {u : String}
    {f : Finding}, u ∈ urls → strContainsSub u "=" = true →
    testPayloadsOnUrl http detect vulnType u payloads = some f →
    f ∈ test_url_params http detect vulnType payloads urls := by
  intro urls
  induction urls with
  | nil => intro u f h; simp at h
  | cons u0 rest ih =>
    intro u f hmem heq hp
    simp only [test_url_params]
    rcases List.mem_cons.mp hmem with h1 | h2
    · subst h1
      rw [if_pos heq, hp]
      exact List.mem_cons_self _ _
    · have htail : f ∈ test_url_params http detect vulnType payloads rest := ih h2 heq hp
      split
      · split
        · exact List.mem_cons_of_mem _ htail
        · exact htail
      · exact htail

theorem pyReplaceEq_of_no_eq {p : String} : ∀ {l : List Char}, l.count '=' = 0 →
    pyReplaceEq p l = l := by
  intro l
  induction l with
  | nil => intro _; rfl
  | cons c rest ih =>
    intro h
    by_cases hc : c = '='
    · subst hc
      simp [List.count_cons] at h
    · have h0 : rest.count '=' = 0 := by
        simp only [List.count_cons, beq_iff_eq] at h
        rw [if_neg hc] at h
        simpa using h
      simp only [pyReplaceEq, if_neg hc]
      rw [ih h0]

theorem pyReplaceEq_append {p : String} : ∀ (l1 l2 : List Char),
    pyReplaceEq p (l1 ++ l2) = pyReplaceEq p l1 ++ pyReplaceEq p l2 := by
  intro l1 l2
  induction l1 with
  | nil => rfl
  | cons c rest ih =>
    simp only [List.cons_append, pyReplaceEq]
    by_cases hc : c = '='
    · simp [hc, ih]
    · simp [hc, ih]

theorem pyReplaceEq_first {p : String} : ∀ {l : List Char}, l.count '=' ≤ 1 →
    pyReplaceEq p l = specFirstReplaceEq p l := by
  intro l
  induction l with
  | nil => intro _; rfl
  | cons c rest ih =>
    intro h
    by_cases hc : c = '='
    · subst hc
      have h0 : rest.count '=' = 0 := by
        simp [List.count_cons] at h
        omega
      rw [show pyReplaceEq p ('=' :: rest) = '=' :: (p.data ++ pyReplaceEq p rest) from rfl,
          show specFirstReplaceEq p ('=' :: rest) = '=' :: (p.data ++ rest) from rfl,
          pyReplaceEq_of_no_eq h0]
    · have h1 : rest.count '=' ≤ 1 := by
        simp only [List.count_cons, beq_iff_eq] at h
        rw [if_neg hc] at h
        simpa using h
      simp only [pyReplaceEq, specFirstReplaceEq, if_neg hc]
      rw [ih h1]

/-! ## Claim theorems -/

/-- C1: the spec states that no probe module ever raises, including on a
crawl result with zero links and zero forms and on forms whose input
fields lack a name attribute.  On the empty surface `test_csrf` indeed
returns no findings without raising, but on a form whose single input has
no name attribute it evaluates `None.lower()` and raises
`AttributeError`: the raised flag of the model is set. -/
theorem csrf_raises_on_nameless_input :
    test_csrf [] = ([], false) ∧ (test_csrf [formNamelessInput]).2 = true := by decide

/-- C2 counterexample: `url.replace("=", f"={payload}")` rewrites every
`=` occurrence, so on a URL with two parameters the built test URL
differs from first-occurrence-only substitution: both values receive the
payload. -/
theorem payload_substitution_not_first_only :
    buildTestUrl "http://t/p?a=1&b=2" "PAYLOAD" ≠
      specBuildTestUrl "http://t/p?a=1&b=2" "PAYLOAD" ∧
    buildTestUrl "http://t/p?a=1&b=2" "PAYLOAD" = "http://t/p?a=PAYLOAD1&b=PAYLOAD2" := by
  decide

/-- C2 amended: the probe builds each test URL by substituting the
payload after every `=` occurrence — the substitution distributes over
string concatenation — and agrees with first-occurrence-only substitution
exactly on URLs containing at most one `=`. -/
theorem payload_substitution_every_eq : ∀ (u v payload : String),
    buildTestUrl (u ++ v) payload = buildTestUrl u payload ++ buildTestUrl v payload ∧
    (u.data.count '=' ≤ 1 → buildTestUrl u payload = specBuildTestUrl u payload) := by
  intro u v payload
  constructor
  · obtain ⟨lu⟩ := u
    obtain ⟨lv⟩ := v
    show String.mk (pyReplaceEq payload (lu ++ lv)) =
      String.mk (pyReplaceEq payload lu) ++ String.mk (pyReplaceEq payload lv)
    rw [pyReplaceEq_append]
    rfl
  · intro h
    unfold buildTestUrl specBuildTestUrl
    rw [pyReplaceEq_first h]

/-- C2 witness: the amended substitution theorem at concrete URLs. -/
theorem payload_substitution_every_eq_witness :
    ("http://t/p?a=1".data.count '=' ≤ 1) ∧
    buildTestUrl ("http://t/p" ++ "?a=1") "X" =
      buildTestUrl "http://t/p" "X" ++ buildTestUrl "?a=1" "X" ∧
    buildTestUrl "http://t/p?a=1" "X" = specBuildTestUrl "http://t/p?a=1" "X" :=
  ⟨by decide, (payload_substitution_every_eq "http://t/p" "?a=1" "X").1,
   (payload_substitution_every_eq "http://t/p?a=1" "" "X").2 (by decide)⟩

/-- C3 counterexample: membership in the CSRF token list is tested by
exact name against csrf/csrftoken/_token, so the form whose token field
is named `csrf_token` is also flagged: both forms produce a finding, not
only the second. -/
theorem csrf_token_named_form_also_flagged :
    test_csrf [formCsrfTokenField, formNoCsrfField] =
      ([csrfFinding formCsrfTokenField, csrfFinding formNoCsrfField], false) ∧
    (test_csrf [formCsrfTokenField, formNoCsrfField]).1 ≠ [csrfFinding formNoCsrfField] := by
  decide

/-- C3 amended: with a token field named exactly `csrftoken` (one of
csrf/csrftoken/_token, compared case-insensitively) in the first form and
no CSRF-like field in the second, exactly the second form is flagged. -/
theorem csrf_exact_name_match :
    test_csrf [formCsrftokenField, formNoCsrfField] =
      ([csrfFinding formNoCsrfField], false) := by decide

/-- C4 counterexample: a raising module (here `test_csrf` on a form list
whose second form has a nameless input) has already appended a finding,
which stays recorded, and the log line carries only the exception
message, not the name of the failing module. -/
theorem module_error_partial_findings_and_log :
    modCsrfOutcome.exn = some "AttributeError" ∧
    (probePhase [modCsrfOutcome, modXssOutcome]).1 = [csrfFinding formNoCsrfField] ∧
    (probePhase [modCsrfOutcome, modXssOutcome]).2 = ["[-] Error in test: AttributeError"] ∧
    strContainsSub "[-] Error in test: AttributeError" "test_csrf" = false := by decide

/-- C4 amended: the collection loop of `scan` isolates failures: every
finding a module appended before completing or raising stays in the
shared result, and every raising module contributes one log line built
from its exception message alone; sibling modules are unaffected and the
report is always produced. -/
theorem module_error_isolation : ∀ (mods : List ModuleOutcome) (m : ModuleOutcome),
    m ∈ mods →
    (∀ f ∈ m.findings, f ∈ (probePhase mods).1) ∧
    (∀ e, m.exn = some e → ("[-] Error in test: " ++ e) ∈ (probePhase mods).2) :=
  fun _ _ hm =>
    ⟨fun _ hf => probePhase_findings_mem hm hf, fun _ he => probePhase_log_mem hm he⟩

/-- C4 witness: the isolation theorem applied to the concrete two-module
scenario. -/
theorem module_error_isolation_witness :
    (modCsrfOutcome ∈ [modCsrfOutcome, modXssOutcome]) ∧
    csrfFinding formNoCsrfField ∈ (probePhase [modCsrfOutcome, modXssOutcome]).1 ∧
    ("[-] Error in test: AttributeError") ∈ (probePhase [modCsrfOutcome, modXssOutcome]).2 :=
  ⟨by decide,
   (module_error_isolation [modCsrfOutcome, modXssOutcome] modCsrfOutcome (by decide)).1
     (csrfFinding formNoCsrfField) (by decide),
   (module_error_isolation [modCsrfOutcome, modXssOutcome] modCsrfOutcome (by decide)).2
     "AttributeError" (by decide)⟩

/-- C5 counterexample: the crawler keeps any resolved link containing the
target URL as a substring, so a link on a foreign origin survives, and
the case-sensitive `startswith` filter misses a `JavaScript:`-scheme
href, which is also kept. -/
theorem crawl_link_origin_violation :
    crawlLinks "http://t" [some hrefCrossOrigin, some hrefJsScheme] [] =
      [hrefCrossOrigin, hrefJsScheme] ∧
    urlOrigin hrefCrossOrigin ≠ urlOrigin "http://t" ∧
    urlScheme hrefJsScheme = "javascript" := by decide

/-- C5 amended: every link the crawler keeps contains the target URL as a
substring (the code's containment check, not an origin comparison), and
hrefs starting with the literal lowercase prefixes javascript:, mailto:
and tel: are skipped entirely. -/
theorem crawl_links_substring_only : ∀ (target : String) (hrefs : List (Option String)),
    (∀ l ∈ crawlLinks target hrefs [], strContainsSub l target = true) ∧
    (∀ (href : String) (rest : List (Option String)) (acc : List String),
      startsWithAny href excludedPrefixes = true →
      crawlLinks target (some href :: rest) acc = crawlLinks target rest acc) :=
  fun target hrefs =>
    ⟨fun l hl => crawlLinks_contains (fun x hx => absurd hx (List.not_mem_nil x)) l hl,
     fun _ _ _ h => crawlLinks_excluded h⟩

/-- C5 witness: the substring property and the prefix filter on concrete
crawls. -/
theorem crawl_links_substring_only_witness :
    ("http://t/a?x=1" ∈ crawlLinks "http://t" [some "/a?x=1"] []) ∧
    strContainsSub "http://t/a?x=1" "http://t" = true ∧
    startsWithAny "mailto:bob" excludedPrefixes = true ∧
    crawlLinks "http://t" [some "mailto:bob", some "/a?x=1"] [] =
      crawlLinks "http://t" [some "/a?x=1"] [] :=
  ⟨by decide,
   (crawl_links_substring_only "http://t" [some "/a?x=1"]).1 "http://t/a?x=1" (by decide),
   by decide,
   (crawl_links_substring_only "http://t" [some "mailto:bob", some "/a?x=1"]).2 "mailto:bob"
     [some "/a?x=1"] [] (by decide)⟩

/-- C6: for probes of the parametrized-URL shape and the SQL-injection
form loop, at most one finding is produced per distinct URL and per
distinct form action: the payload loop stops at the first triggering
payload, so a URL or form never accumulates more than one finding. -/
theorem one_finding_per_url_and_per_form :
    ∀ (http : String → Option Response) (detect : Response → Bool) (vulnType : String)
      (payloads urls : List String) (u : String)
      (submit : String → String → List (Option String × String) → Option Response)
      (forms : List Form) (a : String),
      (urls.Nodup →
        (test_url_params http detect vulnType payloads urls).countP
          (fun f => f.location = u) ≤ 1) ∧
      ((forms.map Form.action).Nodup →
        (test_sql_injection_forms submit payloads forms).countP
          (fun f => f.location = a) ≤ 1) :=
  fun _ _ _ _ _ u _ _ a =>
    ⟨fun hnd => test_url_params_count hnd u, fun hnd => formProbeLoop_count hnd a⟩

/-- C6 witness: the at-most-one theorem on a two-URL list and a one-form
list. -/
theorem one_finding_per_url_and_per_form_witness :
    urlsDemo.Nodup ∧
    (test_url_params httpNone detectNever "SQL Injection" ["PAYLOAD"] urlsDemo).countP
      (fun f => f.location = "http://t/a?x=1") ≤ 1 ∧
    ([formNoCsrfField].map Form.action).Nodup ∧
    (test_sql_injection_forms submitNone ["PAYLOAD"] [formNoCsrfField]).countP
      (fun f => f.location = "http://test.local/f2") ≤ 1 :=
  ⟨by decide,
   (one_finding_per_url_and_per_form httpNone detectNever "SQL Injection" ["PAYLOAD"]
     urlsDemo "http://t/a?x=1" submitNone [formNoCsrfField] "http://test.local/f2").1
     (by decide),
   by decide,
   (one_finding_per_url_and_per_form httpNone detectNever "SQL Injection" ["PAYLOAD"]
     urlsDemo "http://t/a?x=1" submitNone [formNoCsrfField] "http://test.local/f2").2
     (by decide)⟩

/-- C7: when none of the five required security headers is present, the
module produces exactly one finding whose detail lists all five names;
when all five are present it produces none. -/
theorem security_headers_finding : ∀ (target : String) (r : Response),
    ((∀ h ∈ required_headers, headerHas r.headers h = false) →
      test_security_headers target (some r) =
        [{ vulnType := "Missing Security Headers", location := target,
           detail := "Missing headers: " ++ joinWith ", " required_headers,
           testedUrl := target }]) ∧
    ((∀ h ∈ required_headers, headerHas r.headers h = true) →
      test_security_headers target (some r) = []) := by
  intro target r
  constructor
  · intro hnone
    have hm : required_headers.filter (fun h => ! headerHas r.headers h) = required_headers := by
      apply List.filter_eq_self.mpr
      intro a ha
      rw [hnone a ha]
      rfl
    simp only [test_security_headers, hm]
    rw [if_neg (by decide)]
  · intro hall
    have hm : required_headers.filter (fun h => ! headerHas r.headers h) = [] := by
      apply List.filter_eq_nil_iff.mpr
      intro a ha
      rw [hall a ha]
      simp
    simp only [test_security_headers, hm]
    simp

/-- C7 witness: both header scenarios on concrete responses. -/
theorem security_headers_finding_witness :
    required_headers.all (fun h => ! headerHas respNoSecHeaders.headers h) = true ∧
    test_security_headers "http://test.local" (some respNoSecHeaders) =
      [{ vulnType := "Missing Security Headers", location := "http://test.local",
         detail := "Missing headers: " ++ joinWith ", " required_headers,
         testedUrl := "http://test.local" }] ∧
    required_headers.all (fun h => headerHas respAllSecHeaders.headers h) = true ∧
    test_security_headers "http://test.local" (some respAllSecHeaders) = [] :=
  ⟨by decide,
   (security_headers_finding "http://test.local" respNoSecHeaders).1 (by decide),
   by decide,
   (security_headers_finding "http://test.local" respAllSecHeaders).2 (by decide)⟩

/-- C8 counterexample: with the `wp-admin` probe raising, the remaining
paths are never checked even though `joomla` would answer 200, and the
subsequent framework checks are skipped too. -/
theorem tech_path_failure_skips_rest :
    oracleWpFail.pathStatus "joomla" = some 200 ∧
    discover_technologies oracleWpFail = ["Server: nginx", "PHP detected from cookies"] ∧
    "Joomla" ∉ discover_technologies oracleWpFail ∧
    "ReactJS" ∉ discover_technologies oracleWpFail := by decide

/-- C8 amended: a raised request in the first path probe aborts the rest
of `discover_technologies` (the whole body shares one try/except),
leaving exactly the technologies collected before the path loop. -/
theorem tech_path_failure_aborts_loop : ∀ (o : TechOracle) (hs : List (String × String)),
    o.homeHeaders = some hs → o.pathStatus "wp-admin" = none →
    discover_technologies o = headerCookieTechs hs o.cookieNames := by
  intro o hs h1 h2
  simp only [discover_technologies, h1, tech_paths, probePaths, h2]
  simp

/-- C8 witness: the abort theorem applied to the concrete oracle. -/
theorem tech_path_failure_aborts_loop_witness :
    oracleWpFail.homeHeaders = some [("Server", "nginx")] ∧
    oracleWpFail.pathStatus "wp-admin" = none ∧
    discover_technologies oracleWpFail =
      headerCookieTechs [("Server", "nginx")] oracleWpFail.cookieNames :=
  ⟨by decide, by decide,
   tech_path_failure_aborts_loop oracleWpFail [("Server", "nginx")] (by decide) (by decide)⟩

/-- C9 counterexample: the crawler upper-cases whatever the method
attribute holds, so a form with `method="put"` is recorded with method
"PUT", which is neither "GET" nor "POST". -/
theorem form_method_not_get_post :
    (parseForm "http://test.local" rawFormPut).method = "PUT" ∧
    ¬((parseForm "http://test.local" rawFormPut).method = "GET" ∨
      (parseForm "http://test.local" rawFormPut).method = "POST") := by decide

/-- C9 amended: the recorded method is the upper-cased method attribute
(defaulting to get), hence exactly "GET" or "POST" whenever the attribute
is absent or a case-variant of get/post; the recorded fields count always
equals the number of input tags. -/
theorem form_method_upper_and_field_count : ∀ (target : String) (f : RawForm),
    ((f.method = none ∨ f.method.map pyUpper = some "GET" ∨ f.method.map pyUpper = some "POST") →
      ((parseForm target f).method = "GET" ∨ (parseForm target f).method = "POST")) ∧
    (parseForm target f).inputs.length = f.inputs.length := by
  intro target f
  constructor
  · intro h
    cases hm : f.method with
    | none =>
      left
      simp only [parseForm, hm, Option.getD_none]
      decide
    | some m =>
      rw [hm] at h
      rcases h with h | h | h
      · exact absurd h (by simp)
      · left
        simp only [Option.map_some', Option.some.injEq] at h
        simpa [parseForm, hm] using h
      · right
        simp only [Option.map_some', Option.some.injEq] at h
        simpa [parseForm, hm] using h
  · simp [parseForm]

/-- C9 witness: the method/count theorem applied to a `Post` form. -/
theorem form_method_upper_and_field_count_witness :
    rawFormPost.method.map pyUpper = some "POST" ∧
    ((parseForm "http://test.local" rawFormPost).method = "GET" ∨
     (parseForm "http://test.local" rawFormPost).method = "POST") ∧
    (parseForm "http://test.local" rawFormPost).inputs.length = rawFormPost.inputs.length :=
  ⟨by decide,
   (form_method_upper_and_field_count "http://test.local" rawFormPost).1 (by decide),
   (form_method_upper_and_field_count "http://test.local" rawFormPost).2⟩

/-- C10: every fetch-pattern capture of an inline script is resolved and
inserted into the same deduplicated visited-URL collection as the anchor
links, so whenever the resolved endpoint contains `=`, a parametrized-URL
probe whose payload loop triggers on it contributes that finding to the
probe's results over the crawled collection. -/
theorem script_endpoints_probed : ∀ (target : String) (hrefs : List (Option String))
    (scripts : List ScriptTag) (s : ScriptTag) (api : String),
    s ∈ scripts → s.src = none → api ∈ findFetch s.text.data →
    urljoin target api ∈ crawl target hrefs scripts ∧
    (∀ (http : String → Option Response) (detect : Response → Bool) (vulnType : String)
       (payloads : List String) (f : Finding),
       strContainsSub (urljoin target api) "=" = true →
       testPayloadsOnUrl http detect vulnType (urljoin target api) payloads = some f →
       f ∈ test_url_params http detect vulnType payloads (crawl target hrefs scripts)) := by
  intro target hrefs scripts s api hs hsrc hapi
  have hmem : urljoin target api ∈ crawl target hrefs scripts := crawlApis_adds hs hsrc hapi
  exact ⟨hmem, fun http detect vulnType payloads f heq hp => mem_test_url_params hmem heq hp⟩

/-- C10 witness: a concrete inline script, crawl and probe run. -/
theorem script_endpoints_probed_witness :
    scriptDemo ∈ [scriptDemo] ∧ scriptDemo.src = none ∧
    "/api?id=1" ∈ findFetch scriptDemo.text.data ∧
    urljoin "http://t" "/api?id=1" ∈ crawl "http://t" [] [scriptDemo] ∧
    strContainsSub (urljoin "http://t" "/api?id=1") "=" = true ∧
    testPayloadsOnUrl httpSqlErr sqlDetect "SQL Injection" (urljoin "http://t" "/api?id=1")
      ["PAYLOAD"] = some fDemo ∧
    fDemo ∈ test_url_params httpSqlErr sqlDetect "SQL Injection" ["PAYLOAD"]
      (crawl "http://t" [] [scriptDemo]) :=
  ⟨by decide, by decide, by decide,
   (script_endpoints_probed "http://t" [] [scriptDemo] scriptDemo "/api?id=1"
     (by decide) (by decide) (by decide)).1,
   by decide, by decide,
   (script_endpoints_probed "http://t" [] [scriptDemo] scriptDemo "/api?id=1"
     (by decide) (by decide) (by decide)).2
     httpSqlErr sqlDetect "SQL Injection" ["PAYLOAD"] fDemo (by decide) (by decide)⟩
